import Mathlib

/-!
Shallow embedding of the athlo authentication core
(`src/athlo/services/auth_service.py`, `src/athlo/repositories/json_repository.py`,
`src/athlo/models/user.py`, `src/athlo/models/base.py`) and proofs of the
specification claims about it.

Modelling conventions:
* Time is `Int` (seconds since epoch); `datetime.utcnow()` / `datetime.now()`
  become explicit `now : Int` parameters.
* Entity ids (`uuid4`) and random token strings (`secrets.token_urlsafe`) are
  supplied by the caller as explicit fresh-value parameters.
* Python exceptions (`AuthError(msg)`, `ValueError(msg)`) become
  `Except String` results carrying the exception message.
* The on-disk JSON list of records becomes a Lean `List` of records; every
  repository operation is a pure function from the list to the new list,
  mirroring the read-modify-write in `JsonRepository`.
-/

namespace Athlo

/-- `athlo.models.user.User` together with the `BaseModel` fields
(`id`, `created_at`, `updated_at`). -/
structure User where
  id : Nat
  email : String
  password_hash : Option String
  name : String
  preferred_units : String
  is_active : Bool
  google_id : Option String
  auth_provider : String
  avatar_url : Option String
  created_at : Int
  updated_at : Int
deriving Repr, DecidableEq

/-- `athlo.models.user.RefreshToken` together with the `BaseModel` fields. -/
structure RefreshToken where
  id : Nat
  user_id : Nat
  token : String
  expires_at : Int
  revoked : Bool
  created_at : Int
  updated_at : Int
deriving Repr, DecidableEq

/-- The subset of `athlo.config.Settings` the auth service reads. -/
structure Settings where
  jwt_secret_key : String
  access_token_expire_minutes : Int
  refresh_token_expire_days : Int
deriving Repr, DecidableEq

namespace JsonRepository

/-- `JsonRepository.get`: first record whose `id` matches, if any. -/
def get (getId : α → Nat) (id : Nat) (records : List α) : Option α :=
  records.find? (fun r => getId r == id)

/-- `JsonRepository.create`: appends the caller-supplied record. -/
def create (entity : α) (records : List α) : List α :=
  records ++ [entity]

/-- `JsonRepository.update`: replaces the first record whose `id` equals the
entity's id, refreshing `updated_at` to `datetime.now()` on the stored copy;
raises `ValueError` (modelled as `Except.error`) when no record matches. -/
def update (getId : α → Nat) (setUpdatedAt : α → Int → α) (entity : α) (now : Int) :
    List α → Except String (List α)
  | [] => .error "Entity not found"
  | r :: rs =>
    if getId r == getId entity then
      .ok (setUpdatedAt entity now :: rs)
    else
      (update getId setUpdatedAt entity now rs).map (fun rs' => r :: rs')

/-- `JsonRepository.delete`: removes every record whose `id` matches and
returns whether anything was removed (list shrank). -/
def delete (getId : α → Nat) (id : Nat) (records : List α) : List α × Bool :=
  let remaining := records.filter (fun r => getId r != id)
  if remaining.length < records.length then (remaining, true) else (records, false)

/-- `JsonRepository.find_one_by` specialised to a single decidable field
criterion: first record matching, if any. -/
def find_one_by (pred : α → Bool) (records : List α) : Option α :=
  records.find? pred

end JsonRepository

/-- `hash_password` (`pwd_context.hash`, bcrypt). Modelled as a deterministic
tagging function: the claims only depend on `verify_password (hash_password p) = true`
and on verification failing for non-matching inputs. -/
def hash_password (password : String) : String :=
  "bcrypt$" ++ password

/-- `verify_password` (`pwd_context.verify`). The stored hash may be absent
(`User.password_hash` is `str | None`); passlib's `CryptContext.verify`
returns `False` when the hash is `None` (its documented convenience for
accounts without a password), which the `none` case models. -/
def verify_password (plain_password : String) (hashed_password : Option String) : Bool :=
  match hashed_password with
  | none => false
  | some h => hash_password plain_password == h

/-- A JWT as the auth service sees it: either a token signed with some key and
carrying the `sub` / `exp` / `type` claims that `create_access_token` writes,
or an undecodable string. -/
inductive Jwt where
  | signed (sub : Nat) (exp : Int) (typ : String) (key : String)
  | malformed (raw : String)
deriving Repr, DecidableEq

/-- `create_access_token`: payload `{sub, exp = now + expire_minutes, type = "access"}`
signed with the configured secret. Minutes become seconds. -/
def create_access_token (cfg : Settings) (user_id : Nat) (now : Int) : Jwt :=
  .signed user_id (now + cfg.access_token_expire_minutes * 60) "access" cfg.jwt_secret_key

/-- `decode_access_token`: `jose.jwt.decode` verifies the signature and the
`exp` claim (with zero leeway, expired iff `exp < now`), then the service
checks `type == "access"` and extracts `sub`. Any `JWTError` becomes `none`. -/
def decode_access_token (cfg : Settings) (token : Jwt) (now : Int) : Option Nat :=
  match token with
  | .malformed _ => none
  | .signed sub exp typ key =>
    if key ≠ cfg.jwt_secret_key then none
    else if exp < now then none
    else if typ ≠ "access" then none
    else some sub

/-- Record-id and `updated_at` accessors for the two repositories the auth
service instantiates (`user_repo`, `refresh_token_repo`). -/
def User.setUpdatedAt (u : User) (now : Int) : User :=
  { u with updated_at := now }

def RefreshToken.setUpdatedAt (t : RefreshToken) (now : Int) : RefreshToken :=
  { t with updated_at := now }

/-- The persistent state the auth service mutates: the `users.json` and
`refresh_tokens.json` collections. -/
structure AuthState where
  users : List User
  refresh_tokens : List RefreshToken
deriving Repr, DecidableEq

/-- `create_refresh_token`: generates an opaque token string (supplied here as
`token_str`), builds a `RefreshToken` expiring `refresh_token_expire_days`
days from now, persists it, and returns the string with the record. -/
def create_refresh_token (cfg : Settings) (user_id : Nat) (token_str : String)
    (fresh_id : Nat) (now : Int) (tokens : List RefreshToken) :
    String × RefreshToken × List RefreshToken :=
  let refresh_token : RefreshToken :=
    { id := fresh_id
      user_id := user_id
      token := token_str
      expires_at := now + cfg.refresh_token_expire_days * 86400
      revoked := false
      created_at := now
      updated_at := now }
  (token_str, refresh_token, JsonRepository.create refresh_token tokens)

/-- `register_user`: duplicate-email check first, then the password-length
check, then creation of a `User` with the model defaults
(`preferred_units = "metric"`, `is_active = True`, `auth_provider = "email"`). -/
def register_user (email password name : String) (fresh_id : Nat) (now : Int)
    (st : AuthState) : Except String (User × AuthState) :=
  match JsonRepository.find_one_by (fun u => u.email == email) st.users with
  | some _ => .error "Email already registered"
  | none =>
    if password.length < 8 then
      .error "Password must be at least 8 characters"
    else
      let user : User :=
        { id := fresh_id
          email := email
          password_hash := some (hash_password password)
          name := name
          preferred_units := "metric"
          is_active := true
          google_id := none
          auth_provider := "email"
          avatar_url := none
          created_at := now
          updated_at := now }
      .ok (user, { st with users := JsonRepository.create user st.users })

/-- `login_user`: `if not user or not verify_password(...)` then invalid
credentials; then the active check; then one access token and one refresh
token are issued. -/
def login_user (cfg : Settings) (email password : String) (token_str : String)
    (fresh_token_id : Nat) (now : Int) (st : AuthState) :
    Except String ((User × Jwt × String) × AuthState) :=
  match JsonRepository.find_one_by (fun u => u.email == email) st.users with
  | none => .error "Invalid email or password"
  | some user =>
    if ¬ verify_password password user.password_hash then
      .error "Invalid email or password"
    else if ¬ user.is_active then
      .error "Account is deactivated"
    else
      let access_token := create_access_token cfg user.id now
      let r := create_refresh_token cfg user.id token_str fresh_token_id now st.refresh_tokens
      .ok ((user, access_token, r.1), { st with refresh_tokens := r.2.2 })

/-- `refresh_access_token`: lookup by token string, revoked check, expiry
check (`expires_at < utcnow()`), owner lookup and active check, then the
presented record is revoked and persisted and a fresh pair is issued. -/
def refresh_access_token (cfg : Settings) (refresh_token_str : String)
    (new_token_str : String) (fresh_token_id : Nat) (now : Int) (st : AuthState) :
    Except String ((Jwt × String) × AuthState) :=
  match JsonRepository.find_one_by (fun t => t.token == refresh_token_str) st.refresh_tokens with
  | none => .error "Invalid refresh token"
  | some token =>
    if token.revoked then
      .error "Refresh token has been revoked"
    else if token.expires_at < now then
      .error "Refresh token has expired"
    else
      match JsonRepository.get User.id token.user_id st.users with
      | none => .error "User not found or inactive"
      | some user =>
        if ¬ user.is_active then
          .error "User not found or inactive"
        else
          match JsonRepository.update RefreshToken.id RefreshToken.setUpdatedAt
              { token with revoked := true } now st.refresh_tokens with
          | .error e => .error e
          | .ok tokens' =>
            let new_access_token := create_access_token cfg user.id now
            let r := create_refresh_token cfg user.id new_token_str fresh_token_id now tokens'
            .ok ((new_access_token, r.1), { st with refresh_tokens := r.2.2 })

/-- `logout_user`: revoke the matching token when it exists and is not yet
revoked; otherwise a no-op returning `False`. -/
def logout_user (refresh_token_str : String) (now : Int) (st : AuthState) :
    Except String (Bool × AuthState) :=
  match JsonRepository.find_one_by (fun t => t.token == refresh_token_str) st.refresh_tokens with
  | none => .ok (false, st)
  | some token =>
    if token.revoked then
      .ok (false, st)
    else
      match JsonRepository.update RefreshToken.id RefreshToken.setUpdatedAt
          { token with revoked := true } now st.refresh_tokens with
      | .error e => .error e
      | .ok tokens' => .ok (true, { st with refresh_tokens := tokens' })

/-- `change_password`: user lookup by id, current-password verification
(`verify_password` with the possibly absent stored hash), new-password length
check, then the hash is replaced and the user persisted. -/
def change_password (user_id : Nat) (current_password new_password : String)
    (now : Int) (st : AuthState) : Except String (Bool × AuthState) :=
  match JsonRepository.get User.id user_id st.users with
  | none => .error "User not found"
  | some user =>
    if ¬ verify_password current_password user.password_hash then
      .error "Current password is incorrect"
    else if new_password.length < 8 then
      .error "New password must be at least 8 characters"
    else
      let user' := { user with password_hash := some (hash_password new_password) }
      match JsonRepository.update User.id User.setUpdatedAt user' now st.users with
      | .error e => .error e
      | .ok users' => .ok (true, { st with users := users' })

/-- `delete_user`: `user_repo.delete(user_id)`. -/
def delete_user (user_id : Nat) (st : AuthState) : Bool × AuthState :=
  let r := JsonRepository.delete User.id user_id st.users
  (r.2, { st with users := r.1 })

/-- The verified identity claim `verify_google_token` returns:
`{sub, email, name, picture, email_verified}` where `sub`, `email` and
`picture` come from `data.get(...)` and may be absent. -/
structure GoogleClaim where
  sub : Option String
  email : Option String
  name : String
  picture : Option String
  email_verified : Bool
deriving Repr, DecidableEq

/-- Python truthiness of an optional string (`if google_user.get(k)`):
absent and empty strings are falsy. -/
def truthyStr : Option String → Bool
  | none => false
  | some s => s ≠ ""

/-- The shared tail of `login_with_google` after the account is resolved:
the `is_active` check followed by token issuance. -/
def google_after_resolve (cfg : Settings) (token_str : String) (fresh_token_id : Nat)
    (now : Int) (user : User) (st : AuthState) :
    Except String ((User × Jwt × String) × AuthState) :=
  if ¬ user.is_active then
    .error "Account is deactivated"
  else
    let access_token := create_access_token cfg user.id now
    let r := create_refresh_token cfg user.id token_str fresh_token_id now st.refresh_tokens
    .ok ((user, access_token, r.1), { st with refresh_tokens := r.2.2 })

/-- The account linking performed in the found-by-email branch of
`login_with_google`: the external subject id is set, the provider tag
becomes `"google"`, and the avatar is set when the claim carries one; all
other fields — the password hash in particular — are left untouched. -/
def google_link_user (g : GoogleClaim) (user : User) : User :=
  { user with
    google_id := g.sub
    auth_provider := "google"
    avatar_url := if truthyStr g.picture then g.picture else user.avatar_url }

/-- `login_with_google` after token verification: email presence check, then
resolution by `google_id`, else by email with account linking (persisted via
`user_repo.update`), else creation of a passwordless user; then the active
check and token issuance. -/
def login_with_google (cfg : Settings) (g : GoogleClaim) (token_str : String)
    (fresh_user_id fresh_token_id : Nat) (now : Int) (st : AuthState) :
    Except String ((User × Jwt × String) × AuthState) :=
  if ¬ truthyStr g.email then
    .error "Could not retrieve email from Google"
  else
    match JsonRepository.find_one_by (fun u => u.google_id == g.sub) st.users with
    | some user => google_after_resolve cfg token_str fresh_token_id now user st
    | none =>
      match JsonRepository.find_one_by (fun u => some u.email == g.email) st.users with
      | some user =>
        let user' := google_link_user g user
        match JsonRepository.update User.id User.setUpdatedAt user' now st.users with
        | .error e => .error e
        | .ok users' => google_after_resolve cfg token_str fresh_token_id now user'
            { st with users := users' }
      | none =>
        let user : User :=
          { id := fresh_user_id
            email := g.email.getD ""
            password_hash := none
            name := g.name
            preferred_units := "metric"
            is_active := true
            google_id := g.sub
            auth_provider := "google"
            avatar_url := g.picture
            created_at := now
            updated_at := now }
        google_after_resolve cfg token_str fresh_token_id now user
          { st with users := JsonRepository.create user st.users }

/-- The store state an operation leaves behind: the new state on success, the
original state when the operation raised. Used to state claims about the
refresh-token store: no service function writes `refresh_tokens.json` before
any of its raise points (the one error path that writes at all is the
linked-then-deactivated path of `login_with_google`, which touches only
`users.json`). -/
def stateAfter (st : AuthState) : Except String (β × AuthState) → AuthState
  | .ok r => r.2
  | .error _ => st

/-! ### Concrete fixtures used to evaluate the theorems on closed inputs -/

def cfgW : Settings :=
  { jwt_secret_key := "secret"
    access_token_expire_minutes := 15
    refresh_token_expire_days := 7 }

def uW : User :=
  { id := 1
    email := "a@x.com"
    password_hash := some (hash_password "password1")
    name := "Ana"
    preferred_units := "metric"
    is_active := true
    google_id := none
    auth_provider := "email"
    avatar_url := none
    created_at := 0
    updated_at := 0 }

def tW : RefreshToken :=
  { id := 10
    user_id := 1
    token := "R0"
    expires_at := 100
    revoked := false
    created_at := 0
    updated_at := 0 }

def stW : AuthState :=
  { users := [uW], refresh_tokens := [tW] }

def tRevW : RefreshToken :=
  { id := 30
    user_id := 1
    token := "RX"
    expires_at := 100
    revoked := true
    created_at := 0
    updated_at := 0 }

def stW2 : AuthState :=
  { users := [uW], refresh_tokens := [tRevW, tW] }

def gW : GoogleClaim :=
  { sub := some "G1"
    email := some "a@x.com"
    name := "Ana"
    picture := some "p.png"
    email_verified := true }

/-! ### Helper lemmas about `find?` and the repository operations -/

theorem find?_decomp (p : α → Bool) :
    ∀ (l : List α) (a : α), l.find? p = some a →
      ∃ l₁ l₂, l = l₁ ++ a :: l₂ ∧ ∀ x ∈ l₁, p x = false := by
  intro l
  induction l with
  | nil => intro a h; simp [List.find?] at h
  | cons x xs ih =>
    intro a h
    by_cases hx : p x
    · rw [List.find?_cons_of_pos _ hx] at h
      obtain rfl : x = a := by injection h
      exact ⟨[], xs, rfl, by simp⟩
    · rw [List.find?_cons_of_neg _ hx] at h
      obtain ⟨l₁, l₂, rfl, hl₁⟩ := ih a h
      refine ⟨x :: l₁, l₂, rfl, ?_⟩
      intro y hy
      rcases List.mem_cons.mp hy with rfl | hy'
      · exact Bool.eq_false_iff.mpr hx
      · exact hl₁ y hy'

theorem find?_of_decomp (p : α → Bool) (l₁ l₂ : List α) (a : α)
    (h₁ : ∀ x ∈ l₁, p x = false) (ha : p a = true) :
    (l₁ ++ a :: l₂).find? p = some a := by
  induction l₁ with
  | nil => simpa using List.find?_cons_of_pos _ ha
  | cons x xs ih =>
    have hx : p x = false := h₁ x (List.mem_cons_self x xs)
    rw [List.cons_append, List.find?_cons_of_neg _ (by simp [hx])]
    exact ih fun y hy => h₁ y (List.mem_cons_of_mem x hy)

theorem update_of_decomp (getId : α → Nat) (setU : α → Int → α) (e : α) (now : Int) :
    ∀ (l₁ : List α) (r : α) (l₂ : List α), getId r = getId e →
      (∀ x ∈ l₁, getId x ≠ getId e) →
      JsonRepository.update getId setU e now (l₁ ++ r :: l₂) =
        .ok (l₁ ++ setU e now :: l₂) := by
  intro l₁
  induction l₁ with
  | nil =>
    intro r l₂ hr _
    simp [JsonRepository.update, hr]
  | cons x xs ih =>
    intro r l₂ hr hx
    have hxe : (getId x == getId e) = false :=
      beq_eq_false_iff_ne.mpr (hx x (List.mem_cons_self x xs))
    simp only [List.cons_append, JsonRepository.update, hxe, Bool.false_eq_true, if_false,
      List.append_eq]
    rw [ih r l₂ hr fun y hy => hx y (List.mem_cons_of_mem x hy)]
    rfl

theorem update_not_found (getId : α → Nat) (setU : α → Int → α) (e : α) (now : Int) :
    ∀ l : List α, (∀ r ∈ l, getId r ≠ getId e) →
      JsonRepository.update getId setU e now l = .error "Entity not found" := by
  intro l
  induction l with
  | nil => intro _; rfl
  | cons x xs ih =>
    intro h
    have hxe : (getId x == getId e) = false :=
      beq_eq_false_iff_ne.mpr (h x (List.mem_cons_self x xs))
    simp only [JsonRepository.update, hxe, Bool.false_eq_true, if_false]
    rw [ih fun y hy => h y (List.mem_cons_of_mem x hy)]
    rfl

theorem update_mem_of_ne (getId : α → Nat) (setU : α → Int → α) (e : α) (now : Int) :
    ∀ (l l' : List α), JsonRepository.update getId setU e now l = .ok l' →
      ∀ t ∈ l, getId t ≠ getId e → t ∈ l' := by
  intro l
  induction l with
  | nil => intro l' h; simp [JsonRepository.update] at h
  | cons x xs ih =>
    intro l' h t ht htne
    by_cases hxe : getId x = getId e
    · simp only [JsonRepository.update, hxe, beq_self_eq_true, if_true] at h
      obtain rfl : setU e now :: xs = l' := by injection h
      rcases List.mem_cons.mp ht with rfl | ht'
      · exact absurd hxe htne
      · exact List.mem_cons_of_mem _ ht'
    · have hxe' : (getId x == getId e) = false := beq_eq_false_iff_ne.mpr hxe
      simp only [JsonRepository.update, hxe', Bool.false_eq_true, if_false] at h
      cases hrec : JsonRepository.update getId setU e now xs with
      | error msg => rw [hrec] at h; simp [Except.map] at h
      | ok xs' =>
        rw [hrec] at h
        obtain rfl : x :: xs' = l' := by injection h
        rcases List.mem_cons.mp ht with rfl | ht'
        · exact List.mem_cons_self _ _
        · exact List.mem_cons_of_mem _ (ih xs' hrec t ht' htne)

theorem update_ok_mem (getId : α → Nat) (setU : α → Int → α) (e : α) (now : Int)
    (l : List α) (r : α) (hr : r ∈ l) (hid : getId r = getId e) :
    ∃ l', JsonRepository.update getId setU e now l = .ok l' ∧ setU e now ∈ l' := by
  induction l with
  | nil => cases hr
  | cons x xs ih =>
    by_cases hxe : getId x = getId e
    · exact ⟨setU e now :: xs, by simp [JsonRepository.update, hxe], List.mem_cons_self _ _⟩
    · have hxe' : (getId x == getId e) = false := beq_eq_false_iff_ne.mpr hxe
      rcases List.mem_cons.mp hr with rfl | hr'
      · exact absurd hid hxe
      · obtain ⟨l', hl', hmem⟩ := ih hr'
        refine ⟨x :: l', ?_, List.mem_cons_of_mem _ hmem⟩
        simp only [JsonRepository.update, hxe', Bool.false_eq_true, if_false, hl']
        rfl

/-! ### Claim theorems -/

/-- C5: `decode_access_token` applied to `create_access_token user_id` returns
the user id at every evaluation time strictly before the configured access
lifetime elapses and `none` at every time strictly after; and it returns
`none` (it is a total function, so it never throws) on every verification
failure: malformed token, signature key mismatch, expired token, and
token-kind different from `"access"`. -/
theorem access_token_roundtrip (cfg : Settings) (u : Nat) (now now2 : Int) :
    (now2 < now + cfg.access_token_expire_minutes * 60 →
      decode_access_token cfg (create_access_token cfg u now) now2 = some u)
    ∧ (now + cfg.access_token_expire_minutes * 60 < now2 →
      decode_access_token cfg (create_access_token cfg u now) now2 = none)
    ∧ (∀ raw, decode_access_token cfg (.malformed raw) now2 = none)
    ∧ (∀ sub exp typ key, key ≠ cfg.jwt_secret_key →
      decode_access_token cfg (.signed sub exp typ key) now2 = none)
    ∧ (∀ sub exp typ key, exp < now2 →
      decode_access_token cfg (.signed sub exp typ key) now2 = none)
    ∧ (∀ sub exp typ key, typ ≠ "access" →
      decode_access_token cfg (.signed sub exp typ key) now2 = none) := by
  refine ⟨?_, ?_, ?_, ?_, ?_, ?_⟩
  · intro h
    have h' : ¬ (now + cfg.access_token_expire_minutes * 60 < now2) := by omega
    simp [create_access_token, decode_access_token, h']
  · intro h
    simp [create_access_token, decode_access_token, h]
  · intro raw
    rfl
  · intro sub exp typ key hkey
    simp [decode_access_token, hkey]
  · intro sub exp typ key hexp
    by_cases hkey : key = cfg.jwt_secret_key
    · simp [decode_access_token, hkey, hexp]
    · simp [decode_access_token, hkey]
  · intro sub exp typ key htyp
    by_cases hkey : key = cfg.jwt_secret_key
    · by_cases hexp : exp < now2
      · simp [decode_access_token, hkey, hexp]
      · simp [decode_access_token, hkey, hexp, htyp]
    · simp [decode_access_token, hkey]

theorem access_token_roundtrip_witness :
    decode_access_token cfgW (create_access_token cfgW 1 0) 100 = some 1
    ∧ decode_access_token cfgW (create_access_token cfgW 1 0) 1000 = none :=
  ⟨(access_token_roundtrip cfgW 1 0 100).1 (by decide),
   (access_token_roundtrip cfgW 1 0 1000).2.1 (by decide)⟩

/-- C9: for every entity handed to `JsonRepository.update`: when a stored
record with the entity's id exists (the list splits at the first such
record), `update` replaces that record with the entity while setting the
stored `updated_at` to the current time, regardless of the `updated_at`
value the caller supplied; when no record with that id exists it fails with
the not-found error, and (the model being pure, and the Python code raising
before any `_write_all`) no write happens. -/
theorem repo_update_spec (e : User) (now : Int) (l : List User) :
    (∀ (l₁ l₂ : List User) (r : User), l = l₁ ++ r :: l₂ → r.id = e.id →
      (∀ x ∈ l₁, x.id ≠ e.id) →
      JsonRepository.update User.id User.setUpdatedAt e now l =
        .ok (l₁ ++ { e with updated_at := now } :: l₂))
    ∧ ((∀ r ∈ l, r.id ≠ e.id) →
      JsonRepository.update User.id User.setUpdatedAt e now l =
        .error "Entity not found") := by
  constructor
  · intro l₁ l₂ r hl hr hl₁
    subst hl
    exact update_of_decomp User.id User.setUpdatedAt e now l₁ r l₂ hr hl₁
  · intro h
    exact update_not_found User.id User.setUpdatedAt e now l h

theorem repo_update_spec_witness :
    (JsonRepository.update User.id User.setUpdatedAt { uW with updated_at := 42 } 7 [uW] =
      .ok [{ uW with updated_at := 7 }])
    ∧ JsonRepository.update User.id User.setUpdatedAt { uW with id := 99 } 7 [uW] =
      .error "Entity not found" := by
  constructor
  · have h := (repo_update_spec { uW with updated_at := 42 } 7 [uW]).1 [] [] uW rfl rfl
      (by intro x hx; cases hx)
    simpa using h
  · exact (repo_update_spec { uW with id := 99 } 7 [uW]).2
      (by intro r hr; rcases List.mem_singleton.mp hr with rfl; decide)

/-- C10: `JsonRepository.delete` returns `true` iff at least one record with
the given id is stored; when it returns `true` the resulting collection is
exactly the original with every matching record removed (all other records
unchanged, in their original order); when it returns `false` the resulting
collection is the original, untouched (the code takes the no-write path). -/
theorem repo_delete_spec (getId : α → Nat) (id : Nat) (l : List α) :
    ((JsonRepository.delete getId id l).2 = true ↔ ∃ x ∈ l, getId x = id)
    ∧ ((JsonRepository.delete getId id l).2 = true →
      (JsonRepository.delete getId id l).1 = l.filter (fun x => getId x != id))
    ∧ ((JsonRepository.delete getId id l).2 = false →
      (JsonRepository.delete getId id l).1 = l) := by
  have key : (l.filter (fun x => getId x != id)).length < l.length ↔ ∃ x ∈ l, getId x = id := by
    rw [List.length_filter_lt_length_iff_exists]
    constructor
    · rintro ⟨x, hx, hnx⟩
      exact ⟨x, hx, by simpa using hnx⟩
    · rintro ⟨x, hx, hex⟩
      exact ⟨x, hx, by simp [hex]⟩
  by_cases hlen : (l.filter (fun x => getId x != id)).length < l.length
  · refine ⟨?_, ?_, ?_⟩ <;> simp [JsonRepository.delete, hlen, key.mp hlen]
  · have hnone : ¬ ∃ x ∈ l, getId x = id := fun h => hlen (key.mpr h)
    refine ⟨?_, ?_, ?_⟩ <;> simp [JsonRepository.delete, hlen, hnone]

theorem repo_delete_spec_witness :
    (JsonRepository.delete RefreshToken.id 10 [tW]).2 = true
    ∧ (JsonRepository.delete RefreshToken.id 10 [tW]).1 = []
    ∧ (JsonRepository.delete RefreshToken.id 99 [tW]).2 = false
    ∧ (JsonRepository.delete RefreshToken.id 99 [tW]).1 = [tW] := by
  have h := repo_delete_spec RefreshToken.id 10 [tW]
  have h' := repo_delete_spec RefreshToken.id 99 [tW]
  have ht : (JsonRepository.delete RefreshToken.id 10 [tW]).2 = true :=
    h.1.mpr ⟨tW, List.mem_singleton_self tW, rfl⟩
  have hf : (JsonRepository.delete RefreshToken.id 99 [tW]).2 = false := by
    rcases Bool.eq_false_or_eq_true (JsonRepository.delete RefreshToken.id 99 [tW]).2 with
      hb | hb
    · obtain ⟨x, hx, hxid⟩ := h'.1.mp hb
      rcases List.mem_singleton.mp hx with rfl
      exact absurd hxid (by decide)
    · exact hb
  refine ⟨ht, ?_, hf, h'.2.2 hf⟩
  rw [h.2.1 ht]
  decide

/-- C3: `login_user` fails with `InvalidCredentials` ("Invalid email or
password") when no user carries the email, when hash verification fails, or
when the matched account has no password hash at all (pure-OAuth account);
it fails with `AccountDeactivated` ("Account is deactivated") when the
matched, password-verified user is inactive; otherwise it issues one access
token and exactly one new refresh token and returns the triple. -/
theorem login_user_spec (cfg : Settings) (email password token_str : String)
    (fid : Nat) (now : Int) (st : AuthState) :
    (JsonRepository.find_one_by (fun u => u.email == email) st.users = none →
      login_user cfg email password token_str fid now st =
        .error "Invalid email or password")
    ∧ (∀ u, JsonRepository.find_one_by (fun v => v.email == email) st.users = some u →
      (verify_password password u.password_hash = false →
        login_user cfg email password token_str fid now st =
          .error "Invalid email or password")
      ∧ (u.password_hash = none →
        login_user cfg email password token_str fid now st =
          .error "Invalid email or password")
      ∧ (verify_password password u.password_hash = true → u.is_active = false →
        login_user cfg email password token_str fid now st =
          .error "Account is deactivated")
      ∧ (verify_password password u.password_hash = true → u.is_active = true →
        ∃ rec, login_user cfg email password token_str fid now st =
            .ok ((u, create_access_token cfg u.id now, token_str),
              { st with refresh_tokens := st.refresh_tokens ++ [rec] })
          ∧ rec.user_id = u.id ∧ rec.token = token_str ∧ rec.revoked = false)) := by
  constructor
  · intro hfind
    simp [login_user, hfind]
  · intro u hfind
    refine ⟨?_, ?_, ?_, ?_⟩
    · intro hv
      simp [login_user, hfind, hv]
    · intro hph
      simp [login_user, hfind, verify_password, hph]
    · intro hv hact
      simp [login_user, hfind, hv, hact]
    · intro hv hact
      refine ⟨{ id := fid, user_id := u.id, token := token_str,
                expires_at := now + cfg.refresh_token_expire_days * 86400,
                revoked := false, created_at := now, updated_at := now },
        ?_, rfl, rfl, rfl⟩
      simp [login_user, hfind, hv, hact, create_refresh_token, JsonRepository.create]

theorem login_user_spec_witness :
    ∃ rec, login_user cfgW "a@x.com" "password1" "T1" 20 5 stW =
        .ok ((uW, create_access_token cfgW uW.id 5, "T1"),
          { stW with refresh_tokens := stW.refresh_tokens ++ [rec] })
      ∧ rec.user_id = uW.id ∧ rec.token = "T1" ∧ rec.revoked = false :=
  ((login_user_spec cfgW "a@x.com" "password1" "T1" 20 5 stW).2 uW (by decide)).2.2.2
    (by decide) (by decide)

/-- C6: `register_user` fails with `DuplicateEmail` ("Email already
registered") whenever a user with the email exists, for every password and
name (the duplicate check runs before the password-length check, so this
holds even for passwords shorter than 8 characters); with no such account it
fails with `WeakPassword` ("Password must be at least 8 characters") iff the
password length is below 8, and otherwise appends a `User` with provider
`"email"` and a hash of the password. -/
theorem register_user_spec (email password name : String) (fid : Nat) (now : Int)
    (st : AuthState) :
    (∀ u, JsonRepository.find_one_by (fun v => v.email == email) st.users = some u →
      register_user email password name fid now st = .error "Email already registered")
    ∧ (JsonRepository.find_one_by (fun v => v.email == email) st.users = none →
      (password.length < 8 →
        register_user email password name fid now st =
          .error "Password must be at least 8 characters")
      ∧ (8 ≤ password.length →
        ∃ u, register_user email password name fid now st =
            .ok (u, { st with users := st.users ++ [u] })
          ∧ u.email = email ∧ u.auth_provider = "email"
          ∧ u.password_hash = some (hash_password password) ∧ u.name = name)) := by
  constructor
  · intro u hfind
    simp [register_user, hfind]
  · intro hfind
    constructor
    · intro hlen
      simp [register_user, hfind, hlen]
    · intro hlen
      refine ⟨{ id := fid, email := email,
                password_hash := some (hash_password password),
                name := name, preferred_units := "metric", is_active := true,
                google_id := none, auth_provider := "email", avatar_url := none,
                created_at := now, updated_at := now },
        ?_, rfl, rfl, rfl, rfl⟩
      simp [register_user, hfind, Nat.not_lt.mpr hlen, JsonRepository.create]

theorem register_user_spec_witness :
    (register_user "a@x.com" "x" "B" 2 5 stW = .error "Email already registered")
    ∧ ∃ u, register_user "b@x.com" "longenough" "B" 2 5 stW =
        .ok (u, { stW with users := stW.users ++ [u] })
      ∧ u.email = "b@x.com" ∧ u.auth_provider = "email"
      ∧ u.password_hash = some (hash_password "longenough") ∧ u.name = "B" :=
  ⟨(register_user_spec "a@x.com" "x" "B" 2 5 stW).1 uW (by decide),
   ((register_user_spec "b@x.com" "longenough" "B" 2 5 stW).2 (by decide)).2 (by decide)⟩

/-- C7: `change_password` fails with `NotFound` ("User not found") when no
user has the id; fails with `InvalidCredentials` ("Current password is
incorrect") when the current password does not verify against the stored hash,
including when the account has no password hash at all; fails with
`WeakPassword` ("New password must be at least 8 characters") when the new
password is shorter than 8; otherwise it persists the user with the stored
hash replaced by a hash of the new password. -/
theorem change_password_spec (uid : Nat) (cur new : String) (now : Int) (st : AuthState) :
    (JsonRepository.get User.id uid st.users = none →
      change_password uid cur new now st = .error "User not found")
    ∧ (∀ u, JsonRepository.get User.id uid st.users = some u →
      (verify_password cur u.password_hash = false →
        change_password uid cur new now st = .error "Current password is incorrect")
      ∧ (u.password_hash = none →
        change_password uid cur new now st = .error "Current password is incorrect")
      ∧ (verify_password cur u.password_hash = true → new.length < 8 →
        change_password uid cur new now st =
          .error "New password must be at least 8 characters")
      ∧ (verify_password cur u.password_hash = true → 8 ≤ new.length →
        ∃ st', change_password uid cur new now st = .ok (true, st')
          ∧ { u with password_hash := some (hash_password new), updated_at := now }
              ∈ st'.users)) := by
  constructor
  · intro hget
    simp [change_password, hget]
  · intro u hget
    refine ⟨?_, ?_, ?_, ?_⟩
    · intro hv
      simp [change_password, hget, hv]
    · intro hph
      simp [change_password, hget, verify_password, hph]
    · intro hv hlen
      simp [change_password, hget, hv, hlen]
    · intro hv hlen
      have hu : u ∈ st.users := List.mem_of_find?_eq_some hget
      obtain ⟨users', hupd, hmem⟩ := update_ok_mem User.id User.setUpdatedAt
        { u with password_hash := some (hash_password new) } now st.users u hu rfl
      refine ⟨{ st with users := users' }, ?_, hmem⟩
      simp [change_password, hget, hv, Nat.not_lt.mpr hlen, hupd]

theorem change_password_spec_witness :
    ∃ st', change_password 1 "password1" "newpassword" 9 stW = .ok (true, st')
      ∧ { uW with password_hash := some (hash_password "newpassword"), updated_at := 9 }
          ∈ st'.users :=
  ((change_password_spec 1 "password1" "newpassword" 9 stW).2 uW (by decide)).2.2.2
    (by decide) (by decide)

/-- C2 counterexample: in the concrete state `stW` the token `"R0"` is
stored, unrevoked, owned by the existing active user `uW`, and its expiry
timestamp equals the current time (`expires_at = now = 100`); yet
`refresh_access_token` does not fail with `ExpiredRefreshToken` — it
succeeds, because the code's expiry check is `expires_at < utcnow()`, which
is false at the exact expiry instant. -/
theorem refresh_expiry_boundary_cex :
    stW.refresh_tokens.find? (fun t => t.token == "R0") = some tW
    ∧ tW.revoked = false
    ∧ tW.expires_at = 100
    ∧ refresh_access_token cfgW "R0" "R1" 11 100 stW ≠
        .error "Refresh token has expired"
    ∧ (refresh_access_token cfgW "R0" "R1" 11 100 stW).isOk = true := by
  refine ⟨by decide, rfl, rfl, ?_, by decide⟩
  intro h
  have : (refresh_access_token cfgW "R0" "R1" 11 100 stW).isOk = true := by decide
  rw [h] at this
  exact Bool.false_ne_true this

/-- C2 amended: for every stored, unrevoked refresh token,
`refresh_access_token` fails with `ExpiredRefreshToken` ("Refresh token has
expired") iff the expiry timestamp is strictly before the current time; a
token exactly at its expiry instant passes the expiry check and is treated
as still valid. -/
theorem refresh_expiry_boundary_amended (cfg : Settings) (R0 new1 : String)
    (fid : Nat) (now : Int) (st : AuthState) (rec : RefreshToken)
    (hfind : JsonRepository.find_one_by (fun t => t.token == R0) st.refresh_tokens = some rec)
    (hrev : rec.revoked = false) :
    refresh_access_token cfg R0 new1 fid now st = .error "Refresh token has expired"
      ↔ rec.expires_at < now := by
  by_cases hexp : rec.expires_at < now
  · simp [refresh_access_token, hfind, hrev, hexp]
  · simp only [refresh_access_token, hfind, hrev, Bool.false_eq_true, if_false, hexp]
    constructor
    · intro h
      exfalso
      cases hget : JsonRepository.get User.id rec.user_id st.users with
      | none => rw [hget] at h; simp at h
      | some u =>
        rw [hget] at h
        by_cases hact : u.is_active
        · simp only [hact, not_true_eq_false, Bool.false_eq_true, if_false] at h
          cases hupd : JsonRepository.update RefreshToken.id RefreshToken.setUpdatedAt
              { rec with revoked := true } now st.refresh_tokens with
          | error e =>
            rw [hupd] at h
            have hmem : rec ∈ st.refresh_tokens := List.mem_of_find?_eq_some hfind
            have := update_not_found RefreshToken.id RefreshToken.setUpdatedAt
              { rec with revoked := true } now
            obtain ⟨l', hl', _⟩ := update_ok_mem RefreshToken.id RefreshToken.setUpdatedAt
              { rec with revoked := true } now st.refresh_tokens rec hmem rfl
            rw [hl'] at hupd
            exact Except.noConfusion hupd
          | ok tokens' => rw [hupd] at h; simp at h
        · simp [hact] at h
    · intro h
      exact h.elim

theorem refresh_expiry_boundary_amended_witness :
    refresh_access_token cfgW "R0" "R1" 11 101 stW = .error "Refresh token has expired" :=
  (refresh_expiry_boundary_amended cfgW "R0" "R1" 11 101 stW tW (by decide) rfl).mpr
    (by decide)

/-- C1: for every stored refresh token `R0` that is unrevoked, unexpired and
owned by an existing active user (with the storage-layer guarantee that
record ids are unique), the first `refresh_access_token R0` succeeds,
returning a new access token and a new refresh token string, and persists
the presented record with `revoked = true`; on the resulting state every
later `refresh_access_token R0` — at any time, with any fresh values —
fails with `RevokedRefreshToken` ("Refresh token has been revoked"). -/
theorem refresh_one_time_use (cfg : Settings) (R0 new1 new2 : String)
    (fid1 fid2 : Nat) (now now2 : Int) (st : AuthState) (rec : RefreshToken) (u : User)
    (hids : (st.refresh_tokens.map RefreshToken.id).Nodup)
    (hfind : JsonRepository.find_one_by (fun t => t.token == R0) st.refresh_tokens = some rec)
    (hrev : rec.revoked = false)
    (hexp : ¬ rec.expires_at < now)
    (huser : JsonRepository.get User.id rec.user_id st.users = some u)
    (hact : u.is_active = true) :
    ∃ st', refresh_access_token cfg R0 new1 fid1 now st =
        .ok ((create_access_token cfg u.id now, new1), st')
      ∧ { rec with revoked := true, updated_at := now } ∈ st'.refresh_tokens
      ∧ refresh_access_token cfg R0 new2 fid2 now2 st' =
          .error "Refresh token has been revoked" := by
  obtain ⟨l₁, l₂, hsplit, hl₁⟩ := find?_decomp _ st.refresh_tokens rec hfind
  have hrecid : rec.id ∉ l₁.map RefreshToken.id ++ l₂.map RefreshToken.id := by
    have h1 : (st.refresh_tokens.map RefreshToken.id).Nodup := hids
    rw [hsplit, List.map_append, List.map_cons] at h1
    exact (List.nodup_cons.mp (List.nodup_middle.mp h1)).1
  have hne : ∀ x ∈ l₁, x.id ≠ rec.id := by
    intro x hx heq
    exact hrecid (List.mem_append_left _ (heq ▸ List.mem_map_of_mem RefreshToken.id hx))
  have hupd : JsonRepository.update RefreshToken.id RefreshToken.setUpdatedAt
      { rec with revoked := true } now st.refresh_tokens =
        .ok (l₁ ++ { rec with revoked := true, updated_at := now } :: l₂) := by
    rw [hsplit]
    exact update_of_decomp RefreshToken.id RefreshToken.setUpdatedAt
      { rec with revoked := true } now l₁ rec l₂ rfl hne
  refine ⟨{ st with refresh_tokens :=
      (l₁ ++ { rec with revoked := true, updated_at := now } :: l₂) ++
        [{ id := fid1, user_id := u.id, token := new1,
           expires_at := now + cfg.refresh_token_expire_days * 86400,
           revoked := false, created_at := now, updated_at := now }] }, ?_, ?_, ?_⟩
  · simp [refresh_access_token, hfind, hrev, hexp, huser, hact, hupd,
      create_refresh_token, JsonRepository.create]
  · simp
  · have hfind2 : JsonRepository.find_one_by (fun t => t.token == R0)
        (l₁ ++ { rec with revoked := true, updated_at := now } ::
          (l₂ ++ [{ id := fid1, user_id := u.id, token := new1,
                    expires_at := now + cfg.refresh_token_expire_days * 86400,
                    revoked := false, created_at := now, updated_at := now }])) =
        some { rec with revoked := true, updated_at := now } :=
      find?_of_decomp _ l₁ _ _ hl₁ (by simpa using List.find?_some hfind)
    simp [refresh_access_token, hfind2]

theorem refresh_one_time_use_witness :
    ∃ st', refresh_access_token cfgW "R0" "R1" 11 50 stW =
        .ok ((create_access_token cfgW uW.id 50, "R1"), st')
      ∧ { tW with revoked := true, updated_at := 50 } ∈ st'.refresh_tokens
      ∧ refresh_access_token cfgW "R0" "R2" 12 60 st' =
          .error "Refresh token has been revoked" :=
  refresh_one_time_use cfgW "R0" "R1" "R2" 11 12 50 60 stW tW uW
    (by decide) (by decide) rfl (by decide) (by decide) rfl

/-- C4: a refresh-token record that is revoked survives, still revoked and
entirely unchanged, every orchestrator operation — register, login,
federated login, refresh, logout, change password and delete account —
whatever the state after the call (success or failure): once revoked a
token never transitions back to unrevoked; the only writes to the token
store are the active-to-redeemed update in refresh/logout and appends of
fresh records. Record ids are assumed unique (a storage-layer guarantee). -/
theorem revoked_is_terminal (cfg : Settings) (st : AuthState) (t : RefreshToken)
    (hids : (st.refresh_tokens.map RefreshToken.id).Nodup)
    (ht : t ∈ st.refresh_tokens) (hrev : t.revoked = true) :
    (∀ email password name fid now,
      t ∈ (stateAfter st (register_user email password name fid now st)).refresh_tokens)
    ∧ (∀ email password ts fid now,
      t ∈ (stateAfter st (login_user cfg email password ts fid now st)).refresh_tokens)
    ∧ (∀ g ts fuid fid now,
      t ∈ (stateAfter st (login_with_google cfg g ts fuid fid now st)).refresh_tokens)
    ∧ (∀ rts nts fid now,
      t ∈ (stateAfter st (refresh_access_token cfg rts nts fid now st)).refresh_tokens)
    ∧ (∀ rts now, t ∈ (stateAfter st (logout_user rts now st)).refresh_tokens)
    ∧ (∀ uid cur newpw now,
      t ∈ (stateAfter st (change_password uid cur newpw now st)).refresh_tokens)
    ∧ (∀ uid, t ∈ (delete_user uid st).2.refresh_tokens) := by
  have key : ∀ (s : String) (tok : RefreshToken) (now' : Int) (tokens' : List RefreshToken),
      JsonRepository.find_one_by (fun x => x.token == s) st.refresh_tokens = some tok →
      tok.revoked = false →
      JsonRepository.update RefreshToken.id RefreshToken.setUpdatedAt
        { tok with revoked := true } now' st.refresh_tokens = .ok tokens' →
      t ∈ tokens' := by
    intro s tok now' tokens' hf htokrev hupd
    have htokmem : tok ∈ st.refresh_tokens := List.mem_of_find?_eq_some hf
    have hidne : t.id ≠ tok.id := by
      intro h
      have heq : t = tok := List.inj_on_of_nodup_map hids ht htokmem h
      rw [heq, htokrev] at hrev
      exact Bool.false_ne_true hrev
    exact update_mem_of_ne RefreshToken.id RefreshToken.setUpdatedAt
      { tok with revoked := true } now' st.refresh_tokens tokens' hupd t ht hidne
  refine ⟨?_, ?_, ?_, ?_, ?_, ?_, ?_⟩
  · intro email password name fid now
    cases hf : JsonRepository.find_one_by (fun v => v.email == email) st.users with
    | some u => simpa [register_user, hf, stateAfter] using ht
    | none =>
      by_cases hlen : password.length < 8
      · simpa [register_user, hf, hlen, stateAfter] using ht
      · simpa [register_user, hf, hlen, stateAfter, JsonRepository.create] using ht
  · intro email password ts fid now
    cases hf : JsonRepository.find_one_by (fun v => v.email == email) st.users with
    | none => simpa [login_user, hf, stateAfter] using ht
    | some u =>
      cases hv : verify_password password u.password_hash with
      | false => simpa [login_user, hf, hv, stateAfter] using ht
      | true =>
        cases hact : u.is_active with
        | false => simpa [login_user, hf, hv, hact, stateAfter] using ht
        | true =>
          simp only [login_user, hf, hv, hact, stateAfter, create_refresh_token,
            JsonRepository.create, not_true_eq_false, Bool.false_eq_true, if_false]
          exact List.mem_append_left _ ht
  · intro g ts fuid fid now
    have gar : ∀ (user : User) (stx : AuthState), stx.refresh_tokens = st.refresh_tokens →
        t ∈ (stateAfter st (google_after_resolve cfg ts fid now user stx)).refresh_tokens := by
      intro user stx hstx
      cases hact : user.is_active with
      | false => simpa [google_after_resolve, hact, stateAfter] using ht
      | true =>
        simp only [google_after_resolve, hact, stateAfter, create_refresh_token,
          JsonRepository.create, not_true_eq_false, Bool.false_eq_true, if_false]
        rw [hstx]
        exact List.mem_append_left _ ht
    by_cases he : truthyStr g.email
    · cases hf1 : JsonRepository.find_one_by (fun u => u.google_id == g.sub) st.users with
      | some u =>
        simp only [login_with_google, he, hf1, not_true_eq_false, Bool.false_eq_true,
          if_false]
        exact gar u st rfl
      | none =>
        cases hf2 : JsonRepository.find_one_by (fun u => some u.email == g.email) st.users with
        | some u =>
          simp only [login_with_google, he, hf1, hf2, not_true_eq_false,
            Bool.false_eq_true, if_false]
          cases hupd : JsonRepository.update User.id User.setUpdatedAt
              (google_link_user g u) now st.users with
          | error e => simpa [stateAfter] using ht
          | ok users' => exact gar _ _ rfl
        | none =>
          simp only [login_with_google, he, hf1, hf2, not_true_eq_false,
            Bool.false_eq_true, if_false]
          exact gar _ _ rfl
    · simpa [login_with_google, he, stateAfter] using ht
  · intro rts nts fid now
    cases hf : JsonRepository.find_one_by (fun x => x.token == rts) st.refresh_tokens with
    | none => simpa [refresh_access_token, hf, stateAfter] using ht
    | some tok =>
      cases htokrev : tok.revoked with
      | true => simpa [refresh_access_token, hf, htokrev, stateAfter] using ht
      | false =>
        by_cases hexp : tok.expires_at < now
        · simpa [refresh_access_token, hf, htokrev, hexp, stateAfter] using ht
        · cases hget : JsonRepository.get User.id tok.user_id st.users with
          | none => simpa [refresh_access_token, hf, htokrev, hexp, hget,
              stateAfter] using ht
          | some u =>
            cases hact : u.is_active with
            | false => simpa [refresh_access_token, hf, htokrev, hexp, hget, hact,
                stateAfter] using ht
            | true =>
              cases hupd : JsonRepository.update RefreshToken.id RefreshToken.setUpdatedAt
                  { tok with revoked := true } now st.refresh_tokens with
              | error e => simpa [refresh_access_token, hf, htokrev, hexp, hget, hact,
                  hupd, stateAfter] using ht
              | ok tokens' =>
                simp only [refresh_access_token, hf, htokrev, hexp, hget, hact, hupd,
                  stateAfter, create_refresh_token, JsonRepository.create,
                  not_true_eq_false, Bool.false_eq_true, if_false, not_false_eq_true,
                  if_true]
                exact List.mem_append_left _ (key rts tok now tokens' hf htokrev hupd)
  · intro rts now
    cases hf : JsonRepository.find_one_by (fun x => x.token == rts) st.refresh_tokens with
    | none => simpa [logout_user, hf, stateAfter] using ht
    | some tok =>
      cases htokrev : tok.revoked with
      | true => simpa [logout_user, hf, htokrev, stateAfter] using ht
      | false =>
        cases hupd : JsonRepository.update RefreshToken.id RefreshToken.setUpdatedAt
            { tok with revoked := true } now st.refresh_tokens with
        | error e => simpa [logout_user, hf, htokrev, hupd, stateAfter] using ht
        | ok tokens' =>
          simp only [logout_user, hf, htokrev, hupd, stateAfter]
          exact key rts tok now tokens' hf htokrev hupd
  · intro uid cur newpw now
    cases hget : JsonRepository.get User.id uid st.users with
    | none => simpa [change_password, hget, stateAfter] using ht
    | some u =>
      cases hv : verify_password cur u.password_hash with
      | false => simpa [change_password, hget, hv, stateAfter] using ht
      | true =>
        by_cases hlen : newpw.length < 8
        · simpa [change_password, hget, hv, hlen, stateAfter] using ht
        · cases hupd : JsonRepository.update User.id User.setUpdatedAt
              { u with password_hash := some (hash_password newpw) } now st.users with
          | error e => simpa [change_password, hget, hv, hlen, hupd, stateAfter] using ht
          | ok users' => simpa [change_password, hget, hv, hlen, hupd, stateAfter] using ht
  · intro uid
    exact ht

theorem revoked_is_terminal_witness :
    tRevW ∈ (stateAfter stW2 (refresh_access_token cfgW "R0" "R1" 11 50 stW2)).refresh_tokens
    ∧ tRevW ∈ (stateAfter stW2 (logout_user "R0" 50 stW2)).refresh_tokens
    ∧ tRevW ∈ (stateAfter stW2
        (login_user cfgW "a@x.com" "password1" "T1" 20 5 stW2)).refresh_tokens :=
  ⟨(revoked_is_terminal cfgW stW2 tRevW (by decide) (by decide) rfl).2.2.2.1 "R0" "R1" 11 50,
   (revoked_is_terminal cfgW stW2 tRevW (by decide) (by decide) rfl).2.2.2.2.1 "R0" 50,
   (revoked_is_terminal cfgW stW2 tRevW (by decide) (by decide) rfl).2.1
     "a@x.com" "password1" "T1" 20 5⟩

/-- C8: for every verified federated identity claim carrying an email,
`login_with_google` resolves the account in order: (a) a user matching the
external subject id is used as-is (no user write, the returned user and the
user store are unchanged); else (b) a user matching the email is linked —
external subject id set, provider tag becomes `"google"`, avatar set when
newly available, password hash left intact — and persisted through
`user_repo.update`; else (c) a brand-new user with no password hash and the
`"google"` provider tag is appended. -/
theorem login_with_google_resolution (cfg : Settings) (g : GoogleClaim) (ts : String)
    (fuid fid : Nat) (now : Int) (st : AuthState)
    (hemail : truthyStr g.email = true) :
    (∀ u, JsonRepository.find_one_by (fun v => v.google_id == g.sub) st.users = some u →
      (stateAfter st (login_with_google cfg g ts fuid fid now st)).users = st.users
      ∧ (u.is_active = true →
        ∃ st', login_with_google cfg g ts fuid fid now st =
            .ok ((u, create_access_token cfg u.id now, ts), st')
          ∧ st'.users = st.users))
    ∧ (JsonRepository.find_one_by (fun v => v.google_id == g.sub) st.users = none →
      ∀ u, JsonRepository.find_one_by (fun v => some v.email == g.email) st.users = some u →
      (google_link_user g u).google_id = g.sub
      ∧ (google_link_user g u).auth_provider = "google"
      ∧ (truthyStr g.picture = true → (google_link_user g u).avatar_url = g.picture)
      ∧ (google_link_user g u).password_hash = u.password_hash
      ∧ (u.is_active = true →
        ∃ st', login_with_google cfg g ts fuid fid now st =
            .ok ((google_link_user g u, create_access_token cfg u.id now, ts), st')
          ∧ { google_link_user g u with updated_at := now } ∈ st'.users))
    ∧ (JsonRepository.find_one_by (fun v => v.google_id == g.sub) st.users = none →
      JsonRepository.find_one_by (fun v => some v.email == g.email) st.users = none →
      ∃ newu st', login_with_google cfg g ts fuid fid now st =
          .ok ((newu, create_access_token cfg fuid now, ts), st')
        ∧ newu.password_hash = none ∧ newu.auth_provider = "google"
        ∧ newu.google_id = g.sub ∧ newu.id = fuid
        ∧ st'.users = st.users ++ [newu]) := by
  refine ⟨?_, ?_, ?_⟩
  · intro u hsub
    constructor
    · cases hact : u.is_active with
      | false =>
        simp [login_with_google, hemail, hsub, google_after_resolve, hact, stateAfter]
      | true =>
        simp [login_with_google, hemail, hsub, google_after_resolve, hact, stateAfter,
          create_refresh_token, JsonRepository.create]
    · intro hact
      refine ⟨{ st with refresh_tokens := st.refresh_tokens ++
          [{ id := fid, user_id := u.id, token := ts,
             expires_at := now + cfg.refresh_token_expire_days * 86400,
             revoked := false, created_at := now, updated_at := now }] }, ?_, rfl⟩
      simp [login_with_google, hemail, hsub, google_after_resolve, hact,
        create_refresh_token, JsonRepository.create]
  · intro hsub u hemailfind
    refine ⟨rfl, rfl, ?_, rfl, ?_⟩
    · intro hpic
      simp [google_link_user, hpic]
    · intro hact
      have hu : u ∈ st.users := List.mem_of_find?_eq_some hemailfind
      obtain ⟨users', hupd, hmem⟩ := update_ok_mem User.id User.setUpdatedAt
        (google_link_user g u) now st.users u hu rfl
      refine ⟨{ st with users := users', refresh_tokens := st.refresh_tokens ++
          [{ id := fid, user_id := u.id, token := ts,
             expires_at := now + cfg.refresh_token_expire_days * 86400,
             revoked := false, created_at := now, updated_at := now }] }, ?_, hmem⟩
      have hact' : (google_link_user g u).is_active = true := hact
      simp [login_with_google, hemail, hsub, hemailfind, hupd, google_after_resolve,
        hact', create_refresh_token, JsonRepository.create]
      exact ⟨rfl, rfl⟩
  · intro hsub hemailfind
    refine ⟨{ id := fuid, email := g.email.getD "", password_hash := none,
              name := g.name, preferred_units := "metric", is_active := true,
              google_id := g.sub, auth_provider := "google", avatar_url := g.picture,
              created_at := now, updated_at := now },
      { st with
        users := st.users ++
          [{ id := fuid, email := g.email.getD "", password_hash := none,
             name := g.name, preferred_units := "metric", is_active := true,
             google_id := g.sub, auth_provider := "google", avatar_url := g.picture,
             created_at := now, updated_at := now }]
        refresh_tokens := st.refresh_tokens ++
          [{ id := fid, user_id := fuid, token := ts,
             expires_at := now + cfg.refresh_token_expire_days * 86400,
             revoked := false, created_at := now, updated_at := now }] },
      ?_, rfl, rfl, rfl, rfl, rfl⟩
    simp [login_with_google, hemail, hsub, hemailfind, google_after_resolve,
      create_refresh_token, JsonRepository.create]

theorem login_with_google_resolution_witness :
    ∃ st', login_with_google cfgW gW "T2" 99 21 5 stW =
        .ok ((google_link_user gW uW, create_access_token cfgW uW.id 5, "T2"), st')
      ∧ { google_link_user gW uW with updated_at := 5 } ∈ st'.users :=
  (((login_with_google_resolution cfgW gW "T2" 99 21 5 stW rfl).2.1
    (by decide) uW (by decide)).2.2.2.2) rfl

end Athlo
